import Mathlib

/-!
# Verification of the advanced-vector container

Shallow embedding of `src/advanced-vector/vector.h`: a generic growable
sequence built from an untyped backing store (`RawMemory<T>`) and a typed
array (`Vector<T>`).  Machine-level details are modelled as follows:

* A `Vector<T>` in a well-formed state is modelled by `Vec α`: the backing
  capacity (`data_.Capacity()`) plus the list of live element values in
  slots `[0, size_)`.  Move operations on elements are modelled as
  value-preserving reads (as for trivially movable types).
* For claims about object lifetime inside a store, `MVec` keeps one
  `Option`-valued cell per slot (`some v` = constructed object, `none` =
  raw memory), and `RStore` additionally records whether a destroy was
  ever applied to a slot that held no live object.
* For claims about failure of element operations, relocation loops are
  parameterised by an oracle telling which element operation throws, and
  return `Except`; the embedded control flow (including the `catch`
  blocks and the cleanup performed by the `std::uninitialized_*`
  algorithms themselves) follows the source line by line.
-/

namespace AdvVector

/-- Value-level model of `Vector<T>` (vector.h:96-383): `cap` is
`data_.Capacity()`, `elems` the values of the live elements in slots
`[0, size_)`, so `size_ = elems.length`. -/
structure Vec (α : Type) where
  cap : Nat
  elems : List α
deriving Repr, DecidableEq

/-- `Vector::Size` (vector.h:148-150). -/
def Vec.size (v : Vec α) : Nat := v.elems.length

/-- The new capacity `size_ == 0 ? 1 : size_ * 2` chosen by `EmplaceBack`
and `Emplace` when `size_ == Capacity()` (vector.h:242, vector.h:298). -/
def growCap (n : Nat) : Nat := if n = 0 then 1 else n * 2

/-- `Vector::Reserve` (vector.h:129-146), success path: no-op when
`new_capacity <= data_.Capacity()`; otherwise relocate all elements in
order into a fresh store of capacity `new_capacity`, destroy the old ones
and swap stores.  Both relocation policies preserve the element values. -/
def Vec.reserve (v : Vec α) (c : Nat) : Vec α :=
  if c ≤ v.cap then v else ⟨c, v.elems⟩

/-- `Vector::EmplaceBack` (vector.h:238-270), success path.  If
`size_ == Capacity()` the new element is constructed at slot `size_` of a
store of capacity `growCap size_` and the old elements are relocated into
slots `[0, size_)`; otherwise it is constructed in place at slot `size_`.
Returns the updated vector together with the index of the returned
reference `data_[size_ - 1]`, read after `++size_`. -/
def Vec.emplaceBack (v : Vec α) (x : α) : Vec α × Nat :=
  let n := v.elems.length
  let v' : Vec α :=
    if n = v.cap then ⟨growCap n, v.elems ++ [x]⟩
    else ⟨v.cap, v.elems ++ [x]⟩
  (v', v'.elems.length - 1)

/-- `Vector::PushBack` (vector.h:225-230): delegates to `EmplaceBack`. -/
def Vec.pushBack (v : Vec α) (x : α) : Vec α :=
  (v.emplaceBack x).1

/-- `std::move_backward(begin() + i, end() - 1, end())` as called at
vector.h:343, acting on a store `s` that already has the extra element at
slot `n` (`n` = old `size_`): slots `[i+1, n)` receive the previous
contents of slots `[i, n-1)`, every other slot is untouched. -/
def moveBackwardOne (s : List α) (i n : Nat) : List α :=
  s.mapIdx fun k v => if i < k ∧ k < n then s.getD (k - 1) v else v

/-- `Vector::Emplace` (vector.h:291-356), success path; `i` is
`num_pos = pos - begin()`, required to satisfy `i ≤ size_` by the
assertion at vector.h:293.  Branches, in source order:
* `size_ == Capacity()` (vector.h:297-331): the new element is
  constructed at slot `i` of a store of capacity `growCap size_`, the old
  elements `[0, i)` are relocated to slots `[0, i)` and `[i, size_)` to
  slots `[i+1, size_+1)`.
* `pos == end()` (vector.h:335-336): constructed in place at slot
  `size_`.
* otherwise (vector.h:337-350): a temporary holds the new value, the slot
  at `end()` is constructed from `data_[0]` (vector.h:340), the elements
  `[i, size_-1)` are shifted one slot up by `std::move_backward`, and the
  temporary is assigned into slot `i`.  (This branch requires `i < size_`,
  hence `size_ ≥ 1`, so the `headD` default is never used.)
Returns the updated vector and the index of the returned iterator
`begin() + num_pos`. -/
def Vec.emplace (v : Vec α) (i : Nat) (x : α) : Vec α × Nat :=
  if v.elems.length = v.cap then
    (⟨growCap v.elems.length, v.elems.take i ++ [x] ++ v.elems.drop i⟩, i)
  else if i = v.elems.length then
    (⟨v.cap, v.elems ++ [x]⟩, i)
  else
    (⟨v.cap,
      (moveBackwardOne (v.elems ++ [v.elems.headD x]) i v.elems.length).set i x⟩, i)

/-- `Vector::Insert` (vector.h:372-377): delegates to `Emplace`. -/
def Vec.insert (v : Vec α) (i : Nat) (x : α) : Vec α × Nat :=
  v.emplace i x

/-- `Vector::operator=(const Vector&)` (vector.h:170-201), success path,
for `this ≠ &rhs`.  Branches, in source order:
* `rhs.size_ > data_.Capacity()` (vector.h:172-175): copy-and-swap; the
  copy constructor (vector.h:112-117) allocates capacity `rhs.size_`.
* `rhs.size_ < size_` (vector.h:179-185): copy `rhs`'s elements over the
  first `rhs.size_` slots, destroy the trailing `size_ - rhs.size_`.
* otherwise (vector.h:186-195): copy the first `size_` source elements
  over the live slots, then copy-construct the remaining
  `rhs.size_ - size_` into the spare capacity; `size_` updated last.
The right-hand side is read only, so it is left unchanged. -/
def Vec.copyAssign (a b : Vec α) : Vec α :=
  if b.elems.length > a.cap then
    ⟨b.elems.length, b.elems⟩
  else if b.elems.length < a.elems.length then
    ⟨a.cap, b.elems⟩
  else
    ⟨a.cap, b.elems.take a.elems.length ++ b.elems.drop a.elems.length⟩

/-- `Vector::operator=(Vector&&)` (vector.h:202-211), for `this ≠ &rhs`:
`data_.Swap(rhs.data_); size_ = rhs.size_; rhs.size_ = 0;`.  The left
vector ends with `rhs`'s store and size; the right vector ends with the
left's old store but size `0`, so its live range is empty (the old
elements are never destroyed — see the `MVec` model below).  Returns the
pair (left, right) after the assignment; never fails. -/
def Vec.moveAssign (a b : Vec α) : Vec α × Vec α :=
  (⟨b.cap, b.elems⟩, ⟨a.cap, []⟩)

/-- `appendN k`: push `k` elements one by one onto a default-constructed
vector (`Vector()` has `size_ = 0`, `Capacity() = 0`), vector.h:103. -/
def appendN : Nat → Vec Nat
  | 0 => ⟨0, []⟩
  | k + 1 => (appendN k).pushBack k

/-! ## Slot-level model of a vector

`MVec` models a `Vector<T>` at the granularity of individual storage
slots: `slots[i] = some v` means slot `i` holds a constructed object with
value `v`, `slots[i] = none` means slot `i` is raw memory.  This is the
level at which the data-model invariant of §3 of the spec lives. -/

/-- Slot-level state of a `Vector<T>`: backing capacity, one cell per
slot, and the logical `size_`. -/
structure MVec (α : Type) where
  cap : Nat
  slots : List (Option α)
  size : Nat
deriving Repr, DecidableEq

/-- The data-model invariant: `0 ≤ size ≤ capacity`, slots `[0, size)`
hold live constructed elements, slots `[size, capacity)` are raw,
unconstructed memory. -/
def MVec.Inv (v : MVec α) : Prop :=
  v.slots.length = v.cap ∧ v.size ≤ v.cap ∧
    ∀ i < v.cap, (i < v.size → (v.slots.getD i none).isSome = true) ∧
      (v.size ≤ i → v.slots.getD i none = none)

instance (v : MVec Nat) : Decidable v.Inv := by
  unfold MVec.Inv
  exact inferInstance

/-- `Vector::operator=(Vector&&)` (vector.h:202-211) at slot level:
the raw stores (buffer and capacity) are swapped, the left size is set to
the right's, the right size is set to `0`.  No element is destroyed, so
each vector keeps exactly the slot contents of the buffer it now owns. -/
def MVec.moveAssign (a b : MVec α) : MVec α × MVec α :=
  (⟨b.cap, b.slots, b.size⟩, ⟨a.cap, a.slots, 0⟩)

/-! ## Lifetime tracking for a freshly allocated store

`RStore` models the `new_data` store that the growth paths of
`EmplaceBack`/`Emplace` populate, together with a flag recording whether
some `destroy` was ever applied to a slot holding no live object (either
raw memory or an already destroyed object) — that is undefined behavior
in the source. -/

/-- A freshly allocated store being populated: `some v` = live object,
`none` = no live object; `badDestroy` records a destroy applied to a slot
with no live object. -/
structure RStore (α : Type) where
  slots : List (Option α)
  badDestroy : Bool
deriving Repr, DecidableEq

/-- Placement-new of a value into slot `i`. -/
def RStore.constructAt (s : RStore α) (i : Nat) (v : α) : RStore α :=
  { s with slots := s.slots.set i (some v) }

/-- `std::destroy_at(base + i)`: ends the lifetime of the object in slot
`i`; flags `badDestroy` if that slot holds no live object. -/
def RStore.destroyAt (s : RStore α) (i : Nat) : RStore α :=
  if (s.slots.getD i none).isSome then { s with slots := s.slots.set i none }
  else { s with badDestroy := true }

/-- `std::destroy_n(base + start, n)`. -/
def RStore.destroyRange (s : RStore α) (start : Nat) : Nat → RStore α
  | 0 => s
  | n + 1 => RStore.destroyRange (s.destroyAt start) (start + 1) n

/-- `std::uninitialized_copy_n(src + j, cnt, base + d)` into the store
`s`, where the copy constructor of the source element with absolute index
`j` throws iff `oracle j`.  Per the C++ standard, when an exception is
thrown the algorithm destroys the objects it already constructed before
propagating; the error value is the store as the exception leaves it. -/
def uninitCopyN [Inhabited α] (oracle : Nat → Bool) (src : List α) :
    Nat → Nat → Nat → RStore α → Except (RStore α) (RStore α)
  | _, _, 0, s => Except.ok s
  | j, d, k + 1, s =>
    if oracle j then Except.error s
    else
      match uninitCopyN oracle src (j + 1) (d + 1) k (s.constructAt d (src.getD j default)) with
      | Except.ok s' => Except.ok s'
      | Except.error s' => Except.error (s'.destroyAt d)

/-- `Vector::EmplaceBack`, growth path, copy-relocation branch
(vector.h:241-263): allocate `growCap size_` raw slots, construct the new
element at slot `size_` (vector.h:244), copy the old elements into slots
`[0, size_)` inside the `try` (vector.h:250); on an exception the `catch`
runs `std::destroy_n(new_data.GetAddress(), size_)` and rethrows
(vector.h:252-256).  The result is the final state of the new store
(`ok` = relocation succeeded, `error` = the exception propagates). -/
def emplaceBackGrowCopy [Inhabited α] (oracle : Nat → Bool) (elems : List α) (x : α) :
    Except (RStore α) (RStore α) :=
  let n := elems.length
  let s0 : RStore α := ⟨List.replicate (growCap n) none, false⟩
  let s1 := s0.constructAt n x
  match uninitCopyN oracle elems 0 0 n s1 with
  | Except.ok s2 => Except.ok s2
  | Except.error s2 => Except.error (s2.destroyRange 0 n)

/-- `Vector::Emplace`, growth path, copy-relocation branch
(vector.h:297-331): allocate `growCap size_` raw slots, construct the new
element at slot `num_pos` (vector.h:300), copy the old elements
`[0, num_pos)` into slots `[0, num_pos)` — on an exception destroy the
new element and rethrow (vector.h:310-315) — then copy the old elements
`[num_pos, size_)` into slots `[num_pos+1, size_+1)` — on an exception
run `std::destroy_n(new_data.GetAddress(), num_pos)` and rethrow
(vector.h:316-323). -/
def emplaceGrowCopy [Inhabited α] (oracle : Nat → Bool) (elems : List α) (i : Nat) (x : α) :
    Except (RStore α) (RStore α) :=
  let n := elems.length
  let s0 : RStore α := ⟨List.replicate (growCap n) none, false⟩
  let s1 := s0.constructAt i x
  match uninitCopyN oracle elems 0 0 i s1 with
  | Except.error s2 => Except.error (s2.destroyAt i)
  | Except.ok s2 =>
    match uninitCopyN oracle elems i (i + 1) (n - i) s2 with
    | Except.error s3 => Except.error (s3.destroyRange 0 i)
    | Except.ok s3 => Except.ok s3

/-! ## Relocation with a failure oracle, for `Reserve`

The relocation policy of `Reserve` (vector.h:136-140) is the
`if constexpr` condition
`std::is_nothrow_move_constructible_v<T> || !std::is_copy_constructible_v<T>`;
`Profile` carries those two traits of the element type. -/

/-- The state of a slot of the old store during relocation. -/
inductive OldSlot (α : Type) where
  | intact (v : α)
  | movedFrom
deriving Repr, DecidableEq

/-- The two element-type traits the relocation policy inspects. -/
structure Profile where
  nothrowMove : Bool
  copyConstructible : Bool
deriving Repr, DecidableEq

/-- The `if constexpr` policy condition (vector.h:136): elements are
moved when the move constructor is nothrow or the type is not copy
constructible; otherwise they are copied. -/
def movePath (p : Profile) : Bool := p.nothrowMove || !p.copyConstructible

/-- One batch relocation of the old elements (absolute source indices
from `j`) into a fresh store, under policy `p`: the step for element `j`
throws iff the element operation used is not nothrow
(`p.nothrowMove = false`) and `oracle j` fires.  On success the value
lands in the new store; the old slot becomes `movedFrom` on the move path
and stays `intact` on the copy path.  On a throw the
`std::uninitialized_*` algorithm destroys what it constructed in the new
store and the error carries the old slots as the exception leaves them. -/
def relocateFrom (p : Profile) (oracle : Nat → Bool) :
    Nat → List α → Except (List (OldSlot α)) (List α × List (OldSlot α))
  | _, [] => Except.ok ([], [])
  | j, v :: rest =>
    if !p.nothrowMove && oracle j then
      Except.error (OldSlot.intact v :: rest.map OldSlot.intact)
    else
      match relocateFrom p oracle (j + 1) rest with
      | Except.error olds =>
        Except.error ((if movePath p then OldSlot.movedFrom else OldSlot.intact v) :: olds)
      | Except.ok (vals, olds) =>
        Except.ok (v :: vals, (if movePath p then OldSlot.movedFrom else OldSlot.intact v) :: olds)

/-- `Vector::Reserve` (vector.h:129-146) with element-operation failure:
no-op when `new_capacity <= data_.Capacity()`; otherwise relocate the
elements into a fresh store of capacity `new_capacity`, then destroy the
old elements and swap stores.  There is no `try` in `Reserve`: on an
exception nothing of `*this` has been mutated yet (`data_` and `size_`
are only touched after the batch succeeds), so the error carries the old
store's slots, which still back `data_` with the same size and
capacity. -/
def Vec.reserveF (p : Profile) (oracle : Nat → Bool) (v : Vec α) (c : Nat) :
    Except (List (OldSlot α)) (Vec α) :=
  if c ≤ v.cap then Except.ok v
  else
    match relocateFrom p oracle 0 v.elems with
    | Except.error olds => Except.error olds
    | Except.ok (vals, _) => Except.ok ⟨c, vals⟩

/-! ## Helper lemmas -/

/-- Both branches of `EmplaceBack` append the new element; only the
capacity differs. -/
theorem emplaceBack_fst (v : Vec α) (x : α) :
    (v.emplaceBack x).1 =
      ⟨if v.elems.length = v.cap then growCap v.elems.length else v.cap,
        v.elems ++ [x]⟩ := by
  unfold Vec.emplaceBack
  by_cases h : v.elems.length = v.cap <;> simp [h]

/-- The three branches of copy assignment all end with the source's
elements; the capacity grows to `rhs.size_` exactly when it was too
small. -/
theorem copyAssign_eq (a b : Vec α) :
    a.copyAssign b =
      ⟨if a.cap < b.elems.length then b.elems.length else a.cap, b.elems⟩ := by
  unfold Vec.copyAssign
  by_cases h1 : a.cap < b.elems.length
  · simp only [gt_iff_lt, if_pos h1]
  · simp only [gt_iff_lt, if_neg h1]
    by_cases h2 : b.elems.length < a.elems.length
    · simp only [if_pos h2]
    · simp only [if_neg h2]
      rw [List.take_append_drop]

/-- On the copy path a failed batch relocation leaves every old slot
intact: copies never modify their source, and the throw happens before
anything of the old store is destroyed. -/
theorem relocateFrom_copy_error (p : Profile) (oracle : Nat → Bool)
    (hm : movePath p = false) :
    ∀ (j : Nat) (l : List α) (olds : List (OldSlot α)),
      relocateFrom p oracle j l = Except.error olds →
        olds = l.map OldSlot.intact := by
  intro j l
  induction l generalizing j with
  | nil =>
    intro olds h
    exact absurd h (by simp [relocateFrom])
  | cons v rest ih =>
    intro olds h
    unfold relocateFrom at h
    rw [hm] at h
    by_cases ho : (!p.nothrowMove && oracle j) = true
    · rw [if_pos ho] at h
      cases h
      rfl
    · rw [if_neg ho] at h
      cases hrec : relocateFrom p oracle (j + 1) rest with
      | error olds' =>
        rw [hrec] at h
        simp only [Bool.false_eq_true, if_false] at h
        cases h
        rw [List.map_cons, ih (j + 1) olds' hrec]
      | ok pr =>
        rw [hrec] at h
        obtain ⟨vals, olds'⟩ := pr
        exact absurd h (by simp)

/-- On the nothrow-move path a batch relocation never fails, transfers
all the values in order, and leaves every old slot moved-from. -/
theorem relocateFrom_nothrow (p : Profile) (oracle : Nat → Bool)
    (hm : p.nothrowMove = true) :
    ∀ (j : Nat) (l : List α),
      relocateFrom p oracle j l =
        Except.ok (l, l.map fun _ => OldSlot.movedFrom) := by
  intro j l
  induction l generalizing j with
  | nil => rfl
  | cons v rest ih =>
    unfold relocateFrom
    rw [hm, ih (j + 1)]
    simp [movePath, hm]

/-! ## The claims -/

/-- C1: `Insert`/`Emplace` at index `i` into `[a0,…,a(n-1)]` is claimed
to yield `[a0,…,a(i-1), v, ai,…,a(n-1)]`, in particular on the no-growth
path (`size < capacity`) with `0 ≤ i < n`.  The code violates this: on
that path the new final slot is constructed from `data_[0]` instead of
the last element (vector.h:340), so inserting `3` at index `1` into
`[1, 2, 4]` with capacity `4` yields `[1, 3, 2, 1]`, not `[1, 3, 2, 4]` —
the old last element `4` is lost and a copy of `a0` appears at the end. -/
theorem C1_insert_no_growth_corrupts_tail :
    (⟨4, [1, 2, 4]⟩ : Vec Nat).insert 1 3 = (⟨4, [1, 3, 2, 1]⟩, 1) ∧
      ((⟨4, [1, 2, 4]⟩ : Vec Nat).insert 1 3).1.elems ≠ [1, 3, 2, 4] := by
  decide

/-- C2: on growth-triggered `Emplace` with copy relocation, the claim is
that a failed suffix copy destroys every object already constructed in
the new store, including the new element at `position`.  The code
violates this: the suffix `catch` (vector.h:320-323) runs
`std::destroy_n(new_data.GetAddress(), num_pos)`, which destroys only the
prefix `[0, num_pos)`; the new element at slot `num_pos` stays alive when
the exception propagates.  Concretely: vector `[10, 20]` at full
capacity, emplace `99` at position `1`, copy of old element `1` throws —
the new store ends with a live `99` in slot `1`. -/
theorem C2_emplace_suffix_failure_leaks_new_element :
    emplaceGrowCopy (fun j => j == 1) [(10 : Nat), 20] 1 99 =
        Except.error ⟨[none, some 99, none, none], false⟩ ∧
      (⟨[none, some 99, none, none], false⟩ : RStore Nat).slots.getD 1 none =
        some 99 :=
  ⟨rfl, rfl⟩

/-- C3: on growth-triggered `EmplaceBack` with copy relocation, the claim
is that after a failed copy each object constructed in the new store
(including the new element at slot `size`) is destroyed exactly once and
no destruction acts on a non-live slot.  The code violates this: the
`catch` (vector.h:252-256) runs
`std::destroy_n(new_data.GetAddress(), size_)` even though
`std::uninitialized_copy_n` already destroyed its partial work, so the
destroys hit slots with no live object (`badDestroy`), and the new
element at slot `size` is never destroyed.  Concretely: vector `[5, 6]`
at full capacity, `EmplaceBack(7)`, copy of old element `1` throws — the
catch destroys the non-live slots `0` and `1` and the new store ends with
a live `7` in slot `2`. -/
theorem C3_emplaceBack_failure_bad_rollback :
    emplaceBackGrowCopy (fun j => j == 1) [(5 : Nat), 6] 7 =
        Except.error ⟨[none, none, some 7, none], true⟩ ∧
      (⟨[none, none, some 7, none], true⟩ : RStore Nat).badDestroy = true ∧
      (⟨[none, none, some 7, none], true⟩ : RStore Nat).slots.getD 2 none =
        some 7 :=
  ⟨rfl, rfl, rfl⟩

/-- C4: move assignment is claimed to swap backing store and size with
the source, leaving the source with the target's previous size.  The
code (vector.h:202-211) swaps the stores but sets `rhs.size_ = 0` instead
of giving it the target's previous size: with `a = [1, 2]` and
`b = [7]`, after `a = std::move(b)` the source ends with `a`'s old store
(capacity `2`) and size `0` — not size `2` — so `a`'s two old elements
are never destroyed. -/
theorem C4_move_assign_zeroes_source_size :
    Vec.moveAssign (⟨2, [1, 2]⟩ : Vec Nat) ⟨1, [7]⟩ = (⟨1, [7]⟩, ⟨2, []⟩) ∧
      (Vec.moveAssign (⟨2, [1, 2]⟩ : Vec Nat) ⟨1, [7]⟩).2.size ≠
        (⟨2, [1, 2]⟩ : Vec Nat).size := by
  decide

/-- C5: `Reserve(c)` with `c ≤ capacity` changes nothing observable;
with `c > capacity` it sets the capacity to exactly `c` and preserves the
size and the element values in order. -/
theorem C5_reserve_observable (v : Vec α) (c : Nat) :
    (c ≤ v.cap → v.reserve c = v) ∧
      (v.cap < c → (v.reserve c).cap = c ∧ (v.reserve c).elems = v.elems) := by
  refine ⟨fun h => ?_, fun h => ?_⟩
  · simp [Vec.reserve, h]
  · rw [Vec.reserve, if_neg (by omega)]
    exact ⟨rfl, rfl⟩

/-- Witness for C5 at a concrete vector: `Reserve(2)` on a vector of
size 2, capacity 3 is a no-op, and `Reserve(5)` sets capacity 5 keeping
the elements. -/
theorem C5_reserve_observable_witness :
    ((⟨3, [1, 2]⟩ : Vec Nat).reserve 2 = ⟨3, [1, 2]⟩) ∧
      ((⟨3, [1, 2]⟩ : Vec Nat).reserve 5).cap = 5 ∧
        ((⟨3, [1, 2]⟩ : Vec Nat).reserve 5).elems = [1, 2] :=
  ⟨(C5_reserve_observable ⟨3, [1, 2]⟩ 2).1 (by decide),
    (C5_reserve_observable ⟨3, [1, 2]⟩ 5).2 (by decide)⟩

/-- C6, counterexample to the claim as stated: "when the move-based path
is taken, relocation cannot fail" is false.  The policy (vector.h:136)
also selects the move path when the type is not copy constructible, even
if its move constructor may throw: with `Profile ⟨false, false⟩` the move
path is taken and `Reserve(2)` on a one-element vector fails when the
move of element `0` throws. -/
theorem C6_move_path_can_fail :
    movePath ⟨false, false⟩ = true ∧
      Vec.reserveF ⟨false, false⟩ (fun _ => true) (⟨1, [(5 : Nat)]⟩ : Vec Nat) 2 =
        Except.error [OldSlot.intact 5] :=
  ⟨rfl, rfl⟩

/-- C9: every operation is claimed to preserve the invariant "slots
`[0, size)` hold live constructed elements, slots `[size, capacity)` are
raw, unconstructed memory".  Move assignment (vector.h:202-211) violates
it: it hands the target's old store to the source and sets the source's
size to `0` without destroying anything, so the moved-from vector has a
live constructed object in a slot of its supposedly raw region
`[0, capacity)`.  Concretely: `a` with one live element, `b` empty;
after `a = std::move(b)` the source holds `a`'s old store (capacity `1`,
slot `0` live) with size `0`. -/
theorem C9_move_assign_breaks_invariant :
    MVec.Inv (⟨1, [some 5], 1⟩ : MVec Nat) ∧ MVec.Inv (⟨0, [], 0⟩ : MVec Nat) ∧
      ¬ MVec.Inv ((MVec.moveAssign (⟨1, [some 5], 1⟩ : MVec Nat) ⟨0, [], 0⟩).2) := by
  decide

/-- C6 (amended): when `Reserve` takes the copy-based relocation path
(the element type is copy constructible and its move may fail) and an
element copy fails partway through the batch, the failure propagates and
every old slot is left intact — size, capacity and element values are as
before the call (strong guarantee).  When the move path is taken because
the move constructor is nothrow, relocation cannot fail and `Reserve`
returns exactly the failure-free result.  (The move path taken only
because the type is not copy constructible can still fail, see the
counterexample.) -/
theorem C6_reserve_failure_guarantees (p : Profile) (oracle : Nat → Bool)
    (v : Vec α) (c : Nat) :
    (p.copyConstructible = true → p.nothrowMove = false →
      ∀ olds, v.reserveF p oracle c = Except.error olds →
        olds = v.elems.map OldSlot.intact) ∧
      (p.nothrowMove = true →
        v.reserveF p oracle c = Except.ok (v.reserve c)) := by
  constructor
  · intro hcopy hnm olds h
    unfold Vec.reserveF at h
    by_cases hc : c ≤ v.cap
    · rw [if_pos hc] at h
      cases h
    · rw [if_neg hc] at h
      have hm : movePath p = false := by simp [movePath, hnm, hcopy]
      cases hrec : relocateFrom p oracle 0 v.elems with
      | error olds' =>
        rw [hrec] at h
        cases h
        exact relocateFrom_copy_error p oracle hm 0 _ _ hrec
      | ok pr =>
        rw [hrec] at h
        obtain ⟨vals, olds'⟩ := pr
        cases h
  · intro hnm
    unfold Vec.reserveF Vec.reserve
    by_cases hc : c ≤ v.cap
    · rw [if_pos hc, if_pos hc]
    · rw [if_neg hc, if_neg hc, relocateFrom_nothrow p oracle hnm 0 v.elems]

/-- Witness for C6 at concrete inputs: a copy-relocated type
(`Profile ⟨false, true⟩`) whose copy of element `0` throws leaves
`[5]` intact when `Reserve(2)` fails, and a nothrow-move type
(`Profile ⟨true, true⟩`) relocates `[5]` without failing. -/
theorem C6_reserve_failure_guarantees_witness :
    ([OldSlot.intact (5 : Nat)] = ([5] : List Nat).map OldSlot.intact) ∧
      Vec.reserveF ⟨true, true⟩ (fun _ => true) (⟨1, [(5 : Nat)]⟩ : Vec Nat) 2 =
        Except.ok ((⟨1, [(5 : Nat)]⟩ : Vec Nat).reserve 2) :=
  ⟨(C6_reserve_failure_guarantees ⟨false, true⟩ (fun _ => true)
      (⟨1, [(5 : Nat)]⟩ : Vec Nat) 2).1 rfl rfl [OldSlot.intact 5] rfl,
    (C6_reserve_failure_guarantees ⟨true, true⟩ (fun _ => true)
      (⟨1, [(5 : Nat)]⟩ : Vec Nat) 2).2 rfl⟩

/-- C7: `PushBack`/`EmplaceBack` grows only when `size == capacity`, and
then to `max 1 (2 * size)`; appending `k` elements one by one to a
default-constructed vector therefore keeps the capacity at the least
power of two that is at least `k` (so the observed capacities as the
thresholds are crossed are exactly `1, 2, 4, 8, …`). -/
theorem C7_growth_policy_and_capacity_sequence :
    (∀ (v : Vec Nat) (x : Nat),
        ((v.emplaceBack x).1).cap =
          if v.elems.length = v.cap then max 1 (2 * v.elems.length) else v.cap) ∧
      ∀ k, (appendN k).elems.length = k ∧
        (((appendN k).cap = 0 ∧ k = 0) ∨
          ∃ j, (appendN k).cap = 2 ^ j ∧ k ≤ 2 ^ j ∧ 2 ^ j < 2 * k) := by
  constructor
  · intro v x
    rw [emplaceBack_fst]
    by_cases h : v.elems.length = v.cap
    · rw [if_pos h, if_pos h]
      show growCap v.elems.length = max 1 (2 * v.elems.length)
      unfold growCap
      split <;> omega
    · rw [if_neg h, if_neg h]
  · intro k
    induction k with
    | zero => exact ⟨rfl, Or.inl ⟨rfl, rfl⟩⟩
    | succ k ih =>
      obtain ⟨hl, hc⟩ := ih
      have hcap' : (appendN (k + 1)).cap =
          if k = (appendN k).cap then growCap k else (appendN k).cap := by
        show ((appendN k).pushBack k).cap = _
        unfold Vec.pushBack
        rw [emplaceBack_fst, hl]
      have hlen' : (appendN (k + 1)).elems.length = k + 1 := by
        show ((appendN k).pushBack k).elems.length = _
        unfold Vec.pushBack
        rw [emplaceBack_fst]
        simp [hl]
      refine ⟨hlen', Or.inr ?_⟩
      rcases hc with ⟨hc0, hk0⟩ | ⟨j, hj, hkle, hlt⟩
      · subst hk0
        refine ⟨0, ?_, by omega, by omega⟩
        rw [hcap', hc0]
        simp [growCap]
      · have hp : 1 ≤ 2 ^ j := Nat.one_le_two_pow
        have h2 : (2 : Nat) ^ (j + 1) = 2 * 2 ^ j := by ring
        by_cases hk : k = (appendN k).cap
        · have hkj : k = 2 ^ j := by rw [hk, hj]
          refine ⟨j + 1, ?_, by omega, by omega⟩
          rw [hcap', if_pos hk]
          unfold growCap
          rw [if_neg (by omega : ¬ k = 0)]
          omega
        · refine ⟨j, ?_, by omega, by omega⟩
          rw [hcap', if_neg hk, hj]

/-- C8: copy assignment makes the target's elements and size equal to the
source's (the source, which the code only reads, is unchanged), and the
capacity grows to the source's size exactly when it was smaller than
that (the copy-and-swap branch); otherwise the target's storage is reused
in place. -/
theorem C8_copy_assign_deep_copy (a b : Vec α) :
    (a.copyAssign b).elems = b.elems ∧ (a.copyAssign b).size = b.size ∧
      (a.copyAssign b).cap =
        if a.cap < b.elems.length then b.elems.length else a.cap := by
  rw [copyAssign_eq]
  exact ⟨rfl, rfl, rfl⟩

/-- C10: on success `EmplaceBack` returns a reference to the newly
appended element — the element at index `size - 1` of the updated
vector, which holds the inserted value — and `Emplace`/`Insert` return
the iterator `begin() + position`: the index `position` in the updated
vector, where the new value lives. -/
theorem C10_return_positions (v : Vec Nat) (x y : Nat) (i : Nat)
    (h : i ≤ v.elems.length) :
    ((v.emplaceBack x).1.elems = v.elems ++ [x] ∧
        (v.emplaceBack x).2 = (v.emplaceBack x).1.elems.length - 1 ∧
        (v.emplaceBack x).1.elems[(v.emplaceBack x).2]? = some x) ∧
      ((v.emplace i y).2 = i ∧ (v.emplace i y).1.elems[i]? = some y) := by
  constructor
  · have h1 : (v.emplaceBack x).1.elems = v.elems ++ [x] := by
      rw [emplaceBack_fst]
    have h2 : (v.emplaceBack x).2 = (v.emplaceBack x).1.elems.length - 1 := rfl
    refine ⟨h1, h2, ?_⟩
    rw [h2, h1]
    have hlen : (v.elems ++ [x]).length - 1 = v.elems.length := by simp
    rw [hlen, List.getElem?_concat_length]
  · unfold Vec.emplace
    by_cases hg : v.elems.length = v.cap
    · rw [if_pos hg]
      refine ⟨rfl, ?_⟩
      have hlen : (v.elems.take i).length = i := by
        simp [List.length_take]
        omega
      have hle : (v.elems.take i).length ≤ i := le_of_eq hlen
      rw [List.append_assoc, List.getElem?_append_right hle, hlen]
      simp
    · rw [if_neg hg]
      by_cases he : i = v.elems.length
      · rw [if_pos he]
        refine ⟨rfl, ?_⟩
        rw [he]
        exact List.getElem?_concat_length _ _
      · rw [if_neg he]
        refine ⟨rfl, ?_⟩
        apply List.getElem?_set_self
        have : (moveBackwardOne (v.elems ++ [v.elems.headD y]) i
            v.elems.length).length = v.elems.length + 1 := by
          simp [moveBackwardOne, List.length_mapIdx]
        omega

/-- Witness for C10 at a concrete vector of size 2, capacity 3:
`EmplaceBack(9)` returns the reference to the `9` at the new last index,
and `Emplace(begin() + 1, 7)` returns the iterator at index 1, where the
`7` lives. -/
theorem C10_return_positions_witness :
    (((⟨3, [4, 6]⟩ : Vec Nat).emplaceBack 9).1.elems = [4, 6] ++ [9] ∧
        ((⟨3, [4, 6]⟩ : Vec Nat).emplaceBack 9).2 =
          ((⟨3, [4, 6]⟩ : Vec Nat).emplaceBack 9).1.elems.length - 1 ∧
        ((⟨3, [4, 6]⟩ : Vec Nat).emplaceBack 9).1.elems[
          ((⟨3, [4, 6]⟩ : Vec Nat).emplaceBack 9).2]? = some 9) ∧
      (((⟨3, [4, 6]⟩ : Vec Nat).emplace 1 7).2 = 1 ∧
        ((⟨3, [4, 6]⟩ : Vec Nat).emplace 1 7).1.elems[1]? = some 7) :=
  C10_return_positions ⟨3, [4, 6]⟩ 9 7 1 (by decide)

end AdvVector
